import Mathlib

/-!
Shallow embedding of the musiquiz server game manager
(src/server/src/GameManager.ts) and the song catalog it draws from
(src/server/src/data/songs.ts).

Modelling notes.

* A JS `Map` is modelled as an insertion-ordered association list.
  `Map.get` finds the (unique) binding, `Map.set` updates an existing
  binding in place (keeping its original position, as JS does) or
  appends a new one, `Map.delete` removes the binding, and
  `Array.from(map.values())` is the list of values in insertion order.
* Values derived from `Math.random()` are explicit parameters: the index
  stream consumed by `getRandomSong` inside `nextRound` is an oracle
  `Nat → Nat` (reduced mod the catalog size, which is exactly the range
  of `Math.floor(r * length)` for `r ∈ [0, 1)`); the avatar choice is a
  single `Nat`; and the fractional base-36 digits of the random value
  used by `generateRoomId` are a `List (Fin 36)` (with trailing zeros
  trimmed, as `Number.prototype.toString` prints them).
* `Date.now()` is an explicit `now : Nat` parameter.
* `throw new Error(...)` becomes `Except.error` with one constructor per
  distinct message.  Every operation returns its result together with
  the resulting manager state; when an operation throws after having
  already mutated the state (possible only inside `nextRound`), the
  returned state carries those mutations, as in the source.
* In the source a `GamePlayer` object is shared between `room.players`
  and the process-wide `players` map, and `updateScore` mutates the
  shared object.  The embedding updates the registry copy exactly when
  it aliases the room copy, i.e. when its `roomId` field names the
  updated room: player objects are installed in both maps together with
  `roomId` set to that room, the `roomId` field is never mutated, and
  the two copies are removed together by `removePlayer`.
-/

-- ==================== SONG CATALOG (src/server/src/data/songs.ts) ====

/-- Entry of the song catalog.  Only the fields the game manager can
observe are kept; the purely presentational fields (title, artist,
audio url, emoji hints, lyrics, year, genre) never influence any
manager operation and are omitted from the embedding. -/
structure Song where
  id : String
  type : String
  difficulty : String
deriving DecidableEq, Repr

/-- The fixed catalog `SONGS`: four entries, identified by their ids. -/
def SONGS : List Song :=
  [ { id := "song-001", type := "intro", difficulty := "medium" },
    { id := "song-002", type := "reverse", difficulty := "hard" },
    { id := "song-003", type := "emoji", difficulty := "easy" },
    { id := "song-004", type := "intro", difficulty := "medium" } ]

/-- `getRandomSong`: `SONGS[Math.floor(Math.random() * SONGS.length)]`.
The random draw is the oracle value `r`; `Math.floor(r * n)` for
`r ∈ [0, 1)` is an arbitrary index below `n`, rendered as `r % n`.
Indexing an empty catalog yields `undefined`, rendered as `none`.  The
catalog is a parameter so that behaviour on an empty catalog is
statable; the source reads the module-level `SONGS`. -/
def getRandomSong (songs : List Song) (r : Nat) : Option Song :=
  songs.get? (r % songs.length)

-- ==================== ASSOCIATION-LIST MAPS =========================

/-- Lookup in an insertion-ordered association list (JS `Map.get`). -/
def alGet {α : Type} (l : List (String × α)) (k : String) : Option α :=
  match l with
  | [] => none
  | (k0, v) :: rest => if k0 = k then some v else alGet rest k

/-- Key-presence test (JS `Map.has`). -/
def alHas {α : Type} (l : List (String × α)) (k : String) : Bool :=
  (alGet l k).isSome

/-- Insertion / update (JS `Map.set`): an existing binding is updated in
place, keeping its position; a new binding is appended. -/
def alSet {α : Type} (l : List (String × α)) (k : String) (v : α) :
    List (String × α) :=
  match l with
  | [] => [(k, v)]
  | (k0, v0) :: rest =>
      if k0 = k then (k0, v) :: rest else (k0, v0) :: alSet rest k v

/-- Removal (JS `Map.delete`). -/
def alDelete {α : Type} (l : List (String × α)) (k : String) :
    List (String × α) :=
  match l with
  | [] => []
  | (k0, v0) :: rest =>
      if k0 = k then rest else (k0, v0) :: alDelete rest k

-- ==================== GAME MANAGER DATA MODEL =======================

/-- The six-state room state machine of `GameManager.ts`. -/
inductive GameState where
  | LOBBY
  | ROUND_LOADING
  | ROUND_PLAYING
  | ROUND_LOCKED
  | ROUND_RESULT
  | GAME_OVER
deriving DecidableEq, Repr

/-- `GamePlayer` of `GameManager.ts`.  Scores are JS numbers that only
ever receive integer deltas clamped at zero; they are modelled as `Int`. -/
structure GamePlayer where
  id : String
  socketId : String
  name : String
  score : Int
  avatar : String
  roomId : String
deriving DecidableEq, Repr

/-- `CurrentRound` of `GameManager.ts`.  The optional `isKaraoke` field
is set at every creation site (`nextRound`), so it is modelled as a
plain `Bool`; the optional `buzzTime` is `Option Nat`. -/
structure CurrentRound where
  song : Song
  buzzedPlayerId : Option String
  startTime : Nat
  buzzTime : Option Nat
  isKaraoke : Bool
deriving DecidableEq, Repr

/-- `GameRoom` of `GameManager.ts`. -/
structure GameRoom where
  id : String
  hostId : String
  state : GameState
  players : List (String × GamePlayer)
  currentRound : Option CurrentRound
  roundNumber : Nat
  totalRounds : Nat
  songsPlayed : List String
deriving DecidableEq, Repr

/-- The two process-wide maps held by a `GameManager` instance. -/
structure ManagerState where
  rooms : List (String × GameRoom)
  players : List (String × GamePlayer)
deriving DecidableEq, Repr

/-- The empty manager, as constructed by `new GameManager()`. -/
def initState : ManagerState := { rooms := [], players := [] }

/-- One constructor per distinct `throw new Error(...)` message in
`GameManager.ts`. -/
inductive GameError where
  | RoomAlreadyExists
  | RoomNotFound
  | GameAlreadyStarted
  | NeedAtLeastTwoPlayers
  | NoSongsAvailable
  | InvalidStateTransition
  | PlayerNotFoundInRoom
  | InvalidScoreAmount
deriving DecidableEq, Repr

/-- Replace (or insert) one room in the registry. -/
def setRoom (s : ManagerState) (code : String) (room : GameRoom) :
    ManagerState :=
  { s with rooms := alSet s.rooms code room }

-- ==================== HELPER GENERATORS =============================

/-- Digit-to-character table of `Number.prototype.toString(36)` composed
with `toUpperCase`: 0-9 then A-Z. -/
def base36UpperChar (d : Fin 36) : Char :=
  if d.val < 10 then Char.ofNat (48 + d.val) else Char.ofNat (55 + d.val)

/-- `generateRoomId`:
`Math.random().toString(36).substring(2, 8).toUpperCase()`.
`toString(36)` of a random `r ∈ [0, 1)` prints `"0"` when `r = 0` and
otherwise `"0."` followed by the base-36 digits of the fraction with
trailing zeros trimmed; `substring(2, 8)` keeps at most the first six
digit characters.  The digit list is the oracle for `r`. -/
def generateRoomId (digits : List (Fin 36)) : String :=
  String.mk ((digits.take 6).map base36UpperChar)

/-- The 16-entry avatar palette of `generateAvatar`. -/
def avatars : List String :=
  ["🎮", "🎯", "🎲", "🎪", "🎨", "🎭", "🎸", "🎹",
   "🥁", "🎤", "🎧", "🎵", "🎶", "🎼", "🎺", "🎷"]

/-- `generateAvatar`: `avatars[Math.floor(Math.random() * avatars.length)]`
with the random draw given as the oracle value `r`. -/
def generateAvatar (r : Nat) : String :=
  (avatars.get? (r % avatars.length)).getD ""

-- ==================== OPERATIONS ====================================

/-- `createRoom(hostId, hostName, roomId?)`.  The JS guard
`roomId || this.generateRoomId()` treats the empty string as absent. -/
def createRoom (hostId hostName : String) (roomId? : Option String)
    (digits : List (Fin 36)) (avatarR : Nat) (s : ManagerState) :
    Except GameError String × ManagerState :=
  let newRoomId :=
    match roomId? with
    | some rid => if rid = "" then generateRoomId digits else rid
    | none => generateRoomId digits
  if alHas s.rooms newRoomId then
    (Except.error GameError.RoomAlreadyExists, s)
  else
    let room : GameRoom :=
      { id := newRoomId, hostId := hostId, state := GameState.LOBBY,
        players := [], currentRound := none, roundNumber := 0,
        totalRounds := 10, songsPlayed := [] }
    let host : GamePlayer :=
      { id := hostId, socketId := hostId, name := hostName, score := 0,
        avatar := generateAvatar avatarR, roomId := newRoomId }
    let room1 := { room with players := alSet room.players hostId host }
    (Except.ok newRoomId,
     { rooms := alSet s.rooms newRoomId room1,
       players := alSet s.players hostId host })

/-- `addPlayer(socketId, name, roomId)`. -/
def addPlayer (socketId name roomId : String) (avatarR : Nat)
    (s : ManagerState) : Except GameError GamePlayer × ManagerState :=
  match alGet s.rooms roomId with
  | none => (Except.error GameError.RoomNotFound, s)
  | some room =>
    match alGet room.players socketId with
    | some existing => (Except.ok existing, s)
    | none =>
      let player : GamePlayer :=
        { id := socketId, socketId := socketId, name := name, score := 0,
          avatar := generateAvatar avatarR, roomId := roomId }
      let room1 := { room with players := alSet room.players socketId player }
      (Except.ok player,
       { rooms := alSet s.rooms roomId room1,
         players := alSet s.players socketId player })

/-- `removePlayer(socketId)`; returns the pair
`{ room, player }` the source returns, with `room` the post-mutation
room (or `none` when no room is affected). -/
def removePlayer (socketId : String) (s : ManagerState) :
    (Option GameRoom × Option GamePlayer) × ManagerState :=
  match alGet s.players socketId with
  | none => ((none, none), s)
  | some player =>
    match alGet s.rooms player.roomId with
    | none =>
      ((none, some player), { s with players := alDelete s.players socketId })
    | some room =>
      let room1 := { room with players := alDelete room.players socketId }
      let s1 : ManagerState :=
        { rooms := alSet s.rooms player.roomId room1,
          players := alDelete s.players socketId }
      if player.id = room1.hostId then
        match room1.players with
        | [] =>
          ((none, some player),
           { s1 with rooms := alDelete s1.rooms room.id })
        | (_, newHost) :: _ =>
          let room2 := { room1 with hostId := newHost.socketId }
          ((some room2, some player), setRoom s1 player.roomId room2)
      else
        ((some room1, some player), s1)

/-- `startGame(roomId)`. -/
def startGame (roomId : String) (s : ManagerState) :
    Except GameError Unit × ManagerState :=
  match alGet s.rooms roomId with
  | none => (Except.error GameError.RoomNotFound, s)
  | some room =>
    if room.state ≠ GameState.LOBBY then
      (Except.error GameError.GameAlreadyStarted, s)
    else if room.players.length < 2 then
      (Except.error GameError.NeedAtLeastTwoPlayers, s)
    else
      (Except.ok (),
       setRoom s roomId
         { room with state := GameState.ROUND_LOADING, roundNumber := 0,
                     songsPlayed := [] })

/-- Body of the song-selection do-while loop of `nextRound`.  `k` counts
the `getRandomSong` calls already made (the JS `attempts` counter before
the increment); `fuel` is `maxAttempts - 1 - k`, so `fuel = 0` is the
iteration whose incremented counter reaches `maxAttempts = 100`: there
the used list is reset to `[]` and one more unconditional draw is made.
Returns the selected song (`none` only for an empty catalog) together
with the `room.songsPlayed` value after the loop. -/
def selectLoopAux (songs : List Song) (oracle : Nat → Nat)
    (used : List String) : Nat → Nat → Option Song × List String
  | k, 0 => (getRandomSong songs (oracle (k + 1)), [])
  | k, fuel + 1 =>
    match getRandomSong songs (oracle k) with
    | none => (none, used)
    | some song =>
      if song.id ∈ used then selectLoopAux songs oracle used (k + 1) fuel
      else (some song, used)

/-- The whole selection loop of `nextRound`, entered with `attempts = 0`
and `maxAttempts = 100`. -/
def selectSong (songs : List Song) (oracle : Nat → Nat)
    (used : List String) : Option Song × List String :=
  selectLoopAux songs oracle used 0 99

/-- Tail of `nextRound(roomId)` after the implicit `startGame` of a
`LOBBY` room: the game-over check, then the song selection and the
installation of the fresh transient round, flagged karaoke exactly when
the incremented round counter equals `totalRounds`. -/
def nextRoundCore (roomId : String) (oracle : Nat → Nat) (now : Nat)
    (s1 : ManagerState) : Except GameError Unit × ManagerState :=
  match alGet s1.rooms roomId with
  | none => (Except.error GameError.RoomNotFound, s1)
  | some room1 =>
    if room1.roundNumber ≥ room1.totalRounds then
      (Except.ok (),
       setRoom s1 roomId
         { room1 with state := GameState.GAME_OVER, currentRound := none })
    else
      match selectSong SONGS oracle room1.songsPlayed with
      | (none, used1) =>
        (Except.error GameError.NoSongsAvailable,
         setRoom s1 roomId { room1 with songsPlayed := used1 })
      | (some song, used1) =>
        let rn := room1.roundNumber + 1
        (Except.ok (),
         setRoom s1 roomId
           { room1 with
               roundNumber := rn,
               songsPlayed := used1 ++ [song.id],
               state := GameState.ROUND_LOADING,
               currentRound := some
                 { song := song, buzzedPlayerId := none,
                   startTime := now, buzzTime := none,
                   isKaraoke := decide (rn = room1.totalRounds) } })

/-- `nextRound(roomId)`.  A `LOBBY` room is first started via
`startGame` (whose failures propagate with the state unchanged);
otherwise (and after a successful start) `nextRoundCore` runs the
game-over check, the song selection and the round installation. -/
def nextRound (roomId : String) (oracle : Nat → Nat) (now : Nat)
    (s : ManagerState) : Except GameError Unit × ManagerState :=
  match alGet s.rooms roomId with
  | none => (Except.error GameError.RoomNotFound, s)
  | some room =>
    if room.state = GameState.LOBBY then
      match startGame roomId s with
      | (Except.error e, s1) => (Except.error e, s1)
      | (Except.ok _, s1) => nextRoundCore roomId oracle now s1
    else nextRoundCore roomId oracle now s

/-- `startRoundPlaying(roomId)`. -/
def startRoundPlaying (roomId : String) (now : Nat) (s : ManagerState) :
    Except GameError Unit × ManagerState :=
  match alGet s.rooms roomId with
  | none => (Except.error GameError.RoomNotFound, s)
  | some room =>
    match room.currentRound with
    | none => (Except.error GameError.InvalidStateTransition, s)
    | some round =>
      if room.state ≠ GameState.ROUND_LOADING then
        (Except.error GameError.InvalidStateTransition, s)
      else
        (Except.ok (),
         setRoom s roomId
           { room with state := GameState.ROUND_PLAYING,
                       currentRound := some { round with startTime := now } })

/-- `handleBuzz(roomId, playerId)`. -/
def handleBuzz (roomId playerId : String) (now : Nat) (s : ManagerState) :
    Except GameError Bool × ManagerState :=
  match alGet s.rooms roomId with
  | none => (Except.error GameError.RoomNotFound, s)
  | some room =>
    if room.state ≠ GameState.ROUND_PLAYING then (Except.ok false, s)
    else
      match room.currentRound with
      | none => (Except.ok false, s)
      | some round =>
        match round.buzzedPlayerId with
        | some _ => (Except.ok false, s)
        | none =>
          (Except.ok true,
           setRoom s roomId
             { room with
                 state := GameState.ROUND_LOCKED,
                 currentRound := some
                   { round with buzzedPlayerId := some playerId,
                                buzzTime := some now } })

/-- `showRoundResult(roomId)`. -/
def showRoundResult (roomId : String) (s : ManagerState) :
    Except GameError Unit × ManagerState :=
  match alGet s.rooms roomId with
  | none => (Except.error GameError.RoomNotFound, s)
  | some room =>
    if room.state ≠ GameState.ROUND_LOCKED then
      (Except.error GameError.InvalidStateTransition, s)
    else
      (Except.ok (), setRoom s roomId { room with state := GameState.ROUND_RESULT })

/-- `updateScore(roomId, playerId, points)`:
`player.score = Math.max(0, player.score + points)` on the shared player
object (see the aliasing note in the header). -/
def updateScore (roomId playerId : String) (points : Int)
    (s : ManagerState) : Except GameError Unit × ManagerState :=
  match alGet s.rooms roomId with
  | none => (Except.error GameError.RoomNotFound, s)
  | some room =>
    match alGet room.players playerId with
    | none => (Except.error GameError.PlayerNotFoundInRoom, s)
    | some player =>
      let p1 := { player with score := max 0 (player.score + points) }
      let s1 := setRoom s roomId
        { room with players := alSet room.players playerId p1 }
      let s2 :=
        match alGet s1.players playerId with
        | some gp =>
          if gp.roomId = roomId then
            { s1 with players := alSet s1.players playerId p1 }
          else s1
        | none => s1
      (Except.ok (), s2)

/-- `giveScore(roomId, playerId, scoreAmount)`. -/
def giveScore (roomId playerId : String) (scoreAmount : Int)
    (s : ManagerState) : Except GameError Unit × ManagerState :=
  if scoreAmount < 0 ∨ scoreAmount > 10 then
    (Except.error GameError.InvalidScoreAmount, s)
  else updateScore roomId playerId scoreAmount s

/-- `resetRound(roomId)`: in `ROUND_LOCKED` or `ROUND_RESULT` clears the
transient round and delegates to `nextRound`; otherwise a silent no-op. -/
def resetRound (roomId : String) (oracle : Nat → Nat) (now : Nat)
    (s : ManagerState) : Except GameError Unit × ManagerState :=
  match alGet s.rooms roomId with
  | none => (Except.error GameError.RoomNotFound, s)
  | some room =>
    if room.state = GameState.ROUND_LOCKED ∨
       room.state = GameState.ROUND_RESULT then
      nextRound roomId oracle now
        (setRoom s roomId { room with currentRound := none })
    else
      (Except.ok (), s)

-- ==================== REACHABILITY ==================================

/-- One manager operation, with arbitrary caller arguments and arbitrary
environment inputs (random oracles and clock).  Failed calls are
included: they also transition to the returned state. -/
inductive Step : ManagerState → ManagerState → Prop where
  | createRoom (hostId hostName : String) (roomId? : Option String)
      (digits : List (Fin 36)) (avatarR : Nat) (s : ManagerState) :
      Step s (createRoom hostId hostName roomId? digits avatarR s).2
  | addPlayer (socketId name roomId : String) (avatarR : Nat)
      (s : ManagerState) :
      Step s (addPlayer socketId name roomId avatarR s).2
  | removePlayer (socketId : String) (s : ManagerState) :
      Step s (removePlayer socketId s).2
  | startGame (roomId : String) (s : ManagerState) :
      Step s (startGame roomId s).2
  | nextRound (roomId : String) (oracle : Nat → Nat) (now : Nat)
      (s : ManagerState) :
      Step s (nextRound roomId oracle now s).2
  | startRoundPlaying (roomId : String) (now : Nat) (s : ManagerState) :
      Step s (startRoundPlaying roomId now s).2
  | handleBuzz (roomId playerId : String) (now : Nat) (s : ManagerState) :
      Step s (handleBuzz roomId playerId now s).2
  | showRoundResult (roomId : String) (s : ManagerState) :
      Step s (showRoundResult roomId s).2
  | updateScore (roomId playerId : String) (points : Int)
      (s : ManagerState) :
      Step s (updateScore roomId playerId points s).2
  | giveScore (roomId playerId : String) (scoreAmount : Int)
      (s : ManagerState) :
      Step s (giveScore roomId playerId scoreAmount s).2
  | resetRound (roomId : String) (oracle : Nat → Nat) (now : Nat)
      (s : ManagerState) :
      Step s (resetRound roomId oracle now s).2

/-- States reachable from the freshly constructed manager by any
sequence of operations. -/
inductive Reachable : ManagerState → Prop where
  | init : Reachable initState
  | step {s t : ManagerState} : Reachable s → Step s t → Reachable t

-- ==================== ASSOCIATION-LIST LEMMAS =======================

theorem alGet_cons_self {α : Type} (k : String) (v : α)
    (rest : List (String × α)) : alGet ((k, v) :: rest) k = some v := by
  simp [alGet]

theorem alGet_alSet_self {α : Type} (l : List (String × α)) (k : String)
    (v : α) : alGet (alSet l k v) k = some v := by
  induction l with
  | nil => simp [alSet, alGet]
  | cons e rest ih =>
    obtain ⟨k0, v0⟩ := e
    by_cases h : k0 = k <;> simp [alSet, alGet, h, ih]

theorem alGet_alSet_ne {α : Type} (l : List (String × α)) (k k2 : String)
    (v : α) (h : k2 ≠ k) : alGet (alSet l k v) k2 = alGet l k2 := by
  have h2 : ¬k = k2 := fun he => h he.symm
  induction l with
  | nil => simp [alSet, alGet, h2]
  | cons e rest ih =>
    obtain ⟨k0, v0⟩ := e
    by_cases h0 : k0 = k
    · subst h0; simp [alSet, alGet, h2]
    · by_cases hk2 : k0 = k2 <;> simp [alSet, alGet, h0, hk2, h, ih]

theorem alGet_isSome_alSet {α : Type} {l : List (String × α)}
    {k2 : String} (k : String) (v : α) (h : (alGet l k2).isSome = true) :
    (alGet (alSet l k v) k2).isSome = true := by
  by_cases hk : k2 = k
  · subst hk; simp [alGet_alSet_self]
  · rw [alGet_alSet_ne l k k2 v hk]; exact h

theorem mem_alSet {α : Type} {e : String × α} {l : List (String × α)}
    {k : String} {v : α} (h : e ∈ alSet l k v) : e ∈ l ∨ e = (k, v) := by
  induction l with
  | nil => simp [alSet] at h; right; exact h
  | cons e0 rest ih =>
    obtain ⟨k0, v0⟩ := e0
    by_cases h0 : k0 = k
    · subst h0
      rw [alSet, if_pos rfl] at h
      rcases List.mem_cons.mp h with h1 | h1
      · right; exact h1
      · left; exact List.mem_cons_of_mem _ h1
    · rw [alSet, if_neg h0] at h
      rcases List.mem_cons.mp h with h1 | h1
      · left; rw [h1]; exact List.mem_cons_self _ _
      · rcases ih h1 with h2 | h2
        · left; exact List.mem_cons_of_mem _ h2
        · right; exact h2

theorem mem_alDelete {α : Type} {e : String × α} {l : List (String × α)}
    {k : String} (h : e ∈ alDelete l k) : e ∈ l := by
  induction l with
  | nil => simp [alDelete] at h
  | cons e0 rest ih =>
    obtain ⟨k0, v0⟩ := e0
    by_cases h0 : k0 = k
    · rw [alDelete, if_pos h0] at h
      exact List.mem_cons_of_mem _ h
    · rw [alDelete, if_neg h0] at h
      rcases List.mem_cons.mp h with h1 | h1
      · rw [h1]; exact List.mem_cons_self _ _
      · exact List.mem_cons_of_mem _ (ih h1)

theorem alGet_mem {α : Type} {l : List (String × α)} {k : String} {v : α}
    (h : alGet l k = some v) : (k, v) ∈ l := by
  induction l with
  | nil => simp [alGet] at h
  | cons e0 rest ih =>
    obtain ⟨k0, v0⟩ := e0
    by_cases h0 : k0 = k
    · subst h0
      rw [alGet, if_pos rfl] at h
      cases h
      exact List.mem_cons_self _ _
    · rw [alGet, if_neg h0] at h
      exact List.mem_cons_of_mem _ (ih h)

theorem alGet_alDelete_ne {α : Type} (l : List (String × α))
    (k k2 : String) (h : k2 ≠ k) :
    alGet (alDelete l k) k2 = alGet l k2 := by
  induction l with
  | nil => simp [alDelete]
  | cons e rest ih =>
    obtain ⟨k0, v0⟩ := e
    by_cases h0 : k0 = k
    · subst h0
      have h2 : ¬k0 = k2 := fun he => h (he.symm)
      simp [alDelete, alGet, h2]
    · by_cases hk2 : k0 = k2 <;> simp [alDelete, alGet, h0, hk2, h, ih]

theorem alGet_eq_none_of_not_mem {α : Type} {l : List (String × α)}
    {k : String} (h : k ∉ l.map Prod.fst) : alGet l k = none := by
  induction l with
  | nil => rfl
  | cons e rest ih =>
    obtain ⟨k0, v0⟩ := e
    simp only [List.map_cons, List.mem_cons] at h
    push_neg at h
    rw [alGet, if_neg (fun he => h.1 he.symm), ih h.2]

theorem keys_alSet_mem {α : Type} {l : List (String × α)} {k a : String}
    {v : α} (h : a ∈ (alSet l k v).map Prod.fst) :
    a ∈ l.map Prod.fst ∨ a = k := by
  simp only [List.mem_map] at h
  rcases h with ⟨e, he, rfl⟩
  rcases mem_alSet he with h1 | h1
  · left; exact List.mem_map_of_mem _ h1
  · right; rw [h1]

theorem keys_nodup_alSet {α : Type} {l : List (String × α)} {k : String}
    {v : α} (h : (l.map Prod.fst).Nodup) :
    ((alSet l k v).map Prod.fst).Nodup := by
  induction l with
  | nil => simp [alSet]
  | cons e rest ih =>
    obtain ⟨k0, v0⟩ := e
    simp only [List.map_cons, List.nodup_cons] at h
    by_cases h0 : k0 = k
    · rw [alSet, if_pos h0]
      simp only [List.map_cons, List.nodup_cons]
      exact ⟨h.1, h.2⟩
    · rw [alSet, if_neg h0]
      simp only [List.map_cons, List.nodup_cons]
      refine ⟨fun hmem => ?_, ih h.2⟩
      rcases keys_alSet_mem hmem with h1 | h1
      · exact h.1 h1
      · exact h0 h1

theorem keys_nodup_alDelete {α : Type} {l : List (String × α)}
    {k : String} (h : (l.map Prod.fst).Nodup) :
    ((alDelete l k).map Prod.fst).Nodup := by
  induction l with
  | nil => simp [alDelete]
  | cons e rest ih =>
    obtain ⟨k0, v0⟩ := e
    simp only [List.map_cons, List.nodup_cons] at h
    by_cases h0 : k0 = k
    · rw [alDelete, if_pos h0]
      exact h.2
    · rw [alDelete, if_neg h0]
      simp only [List.map_cons, List.nodup_cons]
      refine ⟨fun hmem => ?_, ih h.2⟩
      simp only [List.mem_map] at hmem
      rcases hmem with ⟨e2, he2, heq⟩
      exact h.1 (heq ▸ List.mem_map_of_mem _ (mem_alDelete he2))

theorem alDelete_alSet {α : Type} (l : List (String × α)) (k : String)
    (v : α) : alDelete (alSet l k v) k = alDelete l k := by
  induction l with
  | nil => simp [alSet, alDelete]
  | cons e rest ih =>
    obtain ⟨k0, v0⟩ := e
    by_cases h0 : k0 = k <;> simp [alSet, alDelete, h0, ih]

theorem alSet_alSet {α : Type} (l : List (String × α)) (k : String)
    (v w : α) : alSet (alSet l k v) k w = alSet l k w := by
  induction l with
  | nil => simp [alSet]
  | cons e rest ih =>
    obtain ⟨k0, v0⟩ := e
    by_cases h0 : k0 = k <;> simp [alSet, h0, ih]

theorem alGet_alDelete_self {α : Type} {l : List (String × α)}
    {k : String} (h : (l.map Prod.fst).Nodup) :
    alGet (alDelete l k) k = none := by
  induction l with
  | nil => rfl
  | cons e rest ih =>
    obtain ⟨k0, v0⟩ := e
    simp only [List.map_cons, List.nodup_cons] at h
    by_cases h0 : k0 = k
    · rw [alDelete, if_pos h0]
      exact alGet_eq_none_of_not_mem (h0 ▸ h.1)
    · rw [alDelete, if_neg h0, alGet, if_neg h0]
      exact ih h.2

theorem alDelete_eq_nil {α : Type} {l : List (String × α)} {k : String}
    (h : alDelete l k = []) : ∀ e ∈ l, e.1 = k := by
  intro e he
  induction l with
  | nil => cases he
  | cons e0 rest ih =>
    obtain ⟨k0, v0⟩ := e0
    by_cases h0 : k0 = k
    · rw [alDelete, if_pos h0] at h
      subst h
      rcases List.mem_cons.mp he with h1 | h1
      · rw [h1]; exact h0
      · cases h1
    · rw [alDelete, if_neg h0] at h
      cases h

-- ==================== STATE INVARIANT ===============================

/-- Well-formedness of a single room, an invariant of every reachable
manager state: the host is a member; member records are keyed by their
own socket id (which also equals their id field); the total-rounds
target is the fixed default 10; a `LOBBY` room has round counter 0 and
no transient round; and the transient round is flagged karaoke exactly
when the round counter equals the total-rounds target. -/
def RoomWF (room : GameRoom) : Prop :=
  (alGet room.players room.hostId).isSome = true ∧
  (∀ e ∈ room.players, e.2.socketId = e.1 ∧ e.2.id = e.1) ∧
  room.totalRounds = 10 ∧
  (room.state = GameState.LOBBY →
    room.roundNumber = 0 ∧ room.currentRound = none) ∧
  (∀ r, room.currentRound = some r →
    (r.isKaraoke = true ↔ room.roundNumber = room.totalRounds))

/-- Invariant of the whole manager state: room codes are unique, every
registered room is keyed by its own id and well-formed, and every
registry player is keyed by its own id. -/
def StateInv (s : ManagerState) : Prop :=
  (s.rooms.map Prod.fst).Nodup ∧
  (∀ e ∈ s.rooms, e.2.id = e.1 ∧ RoomWF e.2) ∧
  (∀ e ∈ s.players, e.2.id = e.1)

theorem stateInv_room {s : ManagerState} {code : String} {room : GameRoom}
    (h : StateInv s) (hg : alGet s.rooms code = some room) :
    room.id = code ∧ RoomWF room :=
  h.2.1 (code, room) (alGet_mem hg)

theorem stateInv_player {s : ManagerState} {pid : String} {p : GamePlayer}
    (h : StateInv s) (hg : alGet s.players pid = some p) : p.id = pid :=
  h.2.2 (pid, p) (alGet_mem hg)

theorem stateInv_setRoom {s : ManagerState} {code : String}
    {room : GameRoom} (h : StateInv s) (hid : room.id = code)
    (hwf : RoomWF room) : StateInv (setRoom s code room) := by
  refine ⟨keys_nodup_alSet h.1, ?_, h.2.2⟩
  intro e he
  rcases mem_alSet he with h1 | h1
  · exact h.2.1 e h1
  · subst h1; exact ⟨hid, hwf⟩

-- ==================== INVARIANT PRESERVATION ========================

theorem createRoom_inv (hostId hostName : String) (roomId? : Option String)
    (digits : List (Fin 36)) (avatarR : Nat) {s : ManagerState}
    (h : StateInv s) :
    StateInv (createRoom hostId hostName roomId? digits avatarR s).2 := by
  by_cases hc : alHas s.rooms (match roomId? with
    | some rid => if rid = "" then generateRoomId digits else rid
    | none => generateRoomId digits) = true
  · simp only [createRoom, if_pos hc]
    exact h
  · simp only [createRoom, if_neg hc]
    refine ⟨keys_nodup_alSet h.1, ?_, ?_⟩
    · intro e he
      rcases mem_alSet he with h1 | h1
      · exact h.2.1 e h1
      · subst h1
        refine ⟨rfl, ?_, ?_, rfl, fun _ => ⟨rfl, rfl⟩, fun r hr => nomatch hr⟩
        · simp [alSet, alGet]
        · intro e2 he2
          simp [alSet] at he2
          subst he2
          exact ⟨rfl, rfl⟩
    · intro e he
      rcases mem_alSet he with h1 | h1
      · exact h.2.2 e h1
      · subst h1; rfl

theorem addPlayer_inv (socketId name roomId : String) (avatarR : Nat)
    {s : ManagerState} (h : StateInv s) :
    StateInv (addPlayer socketId name roomId avatarR s).2 := by
  cases hr : alGet s.rooms roomId with
  | none => simp only [addPlayer, hr]; exact h
  | some room =>
    cases hp : alGet room.players socketId with
    | some existing => simp only [addPlayer, hr, hp]; exact h
    | none =>
      simp only [addPlayer, hr, hp]
      obtain ⟨hid, hhost, hkeys, htot, hlob, hkar⟩ :
          room.id = roomId ∧ RoomWF room := stateInv_room h hr
      refine ⟨keys_nodup_alSet h.1, ?_, ?_⟩
      · intro e he
        rcases mem_alSet he with h1 | h1
        · exact h.2.1 e h1
        · subst h1
          refine ⟨hid, alGet_isSome_alSet _ _ hhost, ?_, htot, hlob, hkar⟩
          intro e2 he2
          rcases mem_alSet he2 with h2 | h2
          · exact hkeys e2 h2
          · subst h2; exact ⟨rfl, rfl⟩
      · intro e he
        rcases mem_alSet he with h1 | h1
        · exact h.2.2 e h1
        · subst h1; rfl

theorem startGame_inv (roomId : String) {s : ManagerState}
    (h : StateInv s) : StateInv (startGame roomId s).2 := by
  cases hr : alGet s.rooms roomId with
  | none => simp only [startGame, hr]; exact h
  | some room =>
    obtain ⟨hid, hhost, hkeys, htot, hlob, hkar⟩ :
        room.id = roomId ∧ RoomWF room := stateInv_room h hr
    by_cases h1 : room.state ≠ GameState.LOBBY
    · simp only [startGame, hr, if_pos h1]
      exact h
    · by_cases h2 : room.players.length < 2
      · simp only [startGame, hr, if_neg h1, if_pos h2]
        exact h
      · simp only [startGame, hr, if_neg h1, if_neg h2]
        push_neg at h1
        refine stateInv_setRoom h hid ⟨hhost, hkeys, htot, ?_, ?_⟩
        · intro hfalse
          exact nomatch (show GameState.ROUND_LOADING = GameState.LOBBY from hfalse)
        · intro r hcr
          have hcr2 : room.currentRound = some r := hcr
          rw [(hlob h1).2] at hcr2
          exact nomatch hcr2

theorem removePlayer_inv (socketId : String) {s : ManagerState}
    (h : StateInv s) : StateInv (removePlayer socketId s).2 := by
  cases hp : alGet s.players socketId with
  | none => simp only [removePlayer, hp]; exact h
  | some player =>
    cases hr : alGet s.rooms player.roomId with
    | none =>
      simp only [removePlayer, hp, hr]
      exact ⟨h.1, h.2.1, fun e he => h.2.2 e (mem_alDelete he)⟩
    | some room =>
      obtain ⟨hid, hhost, hkeys, htot, hlob, hkar⟩ :
          room.id = player.roomId ∧ RoomWF room := stateInv_room h hr
      have hpid : player.id = socketId := stateInv_player h hp
      by_cases hb : player.id = room.hostId
      · cases hdel : alDelete room.players socketId with
        | nil =>
          simp only [removePlayer, hp, hr, hdel, if_pos hb]
          rw [hid, alDelete_alSet]
          exact ⟨keys_nodup_alDelete h.1,
                 fun e he => h.2.1 e (mem_alDelete he),
                 fun e he => h.2.2 e (mem_alDelete he)⟩
        | cons e0 rest =>
          obtain ⟨k0, newHost⟩ := e0
          have hsub : ∀ e, e ∈ (k0, newHost) :: rest → e ∈ room.players := by
            intro e he
            exact mem_alDelete (l := room.players) (k := socketId) (hdel ▸ he)
          simp only [removePlayer, hp, hr, hdel, if_pos hb, setRoom]
          rw [alSet_alSet]
          refine ⟨keys_nodup_alSet h.1, ?_,
                  fun e he => h.2.2 e (mem_alDelete he)⟩
          intro e he
          rcases mem_alSet he with h1 | h1
          · exact h.2.1 e h1
          · subst h1
            refine ⟨hid, ?_, fun e2 he2 => hkeys e2 (hsub e2 he2),
                    htot, hlob, hkar⟩
            have hk0 : newHost.socketId = k0 :=
              (hkeys (k0, newHost) (hsub _ (List.mem_cons_self _ _))).1
            rw [hk0]
            simp [alGet]
      · simp only [removePlayer, hp, hr, if_neg hb]
        refine ⟨keys_nodup_alSet h.1, ?_,
                fun e he => h.2.2 e (mem_alDelete he)⟩
        intro e he
        rcases mem_alSet he with h1 | h1
        · exact h.2.1 e h1
        · subst h1
          refine ⟨hid, ?_, fun e2 he2 => hkeys e2 (mem_alDelete he2),
                  htot, hlob, hkar⟩
          have hne : room.hostId ≠ socketId := by
            intro heq
            exact hb (by rw [hpid, heq])
          rw [alGet_alDelete_ne _ socketId room.hostId hne]
          exact hhost

theorem nextRoundCore_inv (roomId : String) (oracle : Nat → Nat)
    (now : Nat) {s1 : ManagerState} (h : StateInv s1) :
    StateInv (nextRoundCore roomId oracle now s1).2 := by
  cases hr : alGet s1.rooms roomId with
  | none => simp only [nextRoundCore, hr]; exact h
  | some room1 =>
    obtain ⟨hid, hhost, hkeys, htot, hlob, hkar⟩ :
        room1.id = roomId ∧ RoomWF room1 := stateInv_room h hr
    by_cases hge : room1.roundNumber ≥ room1.totalRounds
    · simp only [nextRoundCore, hr, if_pos hge]
      refine stateInv_setRoom h hid ⟨hhost, hkeys, htot, ?_, ?_⟩
      · intro hf
        exact nomatch (show GameState.GAME_OVER = GameState.LOBBY from hf)
      · intro r hr2
        exact nomatch (show (none : Option CurrentRound) = some r from hr2)
    · rcases hsel : selectSong SONGS oracle room1.songsPlayed with
        ⟨songOpt, used1⟩
      cases songOpt with
      | none =>
        simp only [nextRoundCore, hr, if_neg hge, hsel]
        exact stateInv_setRoom h hid ⟨hhost, hkeys, htot, hlob, hkar⟩
      | some song =>
        simp only [nextRoundCore, hr, if_neg hge, hsel]
        refine stateInv_setRoom h hid ⟨hhost, hkeys, htot, ?_, ?_⟩
        · intro hf
          exact nomatch (show GameState.ROUND_LOADING = GameState.LOBBY from hf)
        · intro r hr2
          have hr4 := Option.some.inj hr2
          subst hr4
          simp [decide_eq_true_eq]

theorem nextRound_inv (roomId : String) (oracle : Nat → Nat) (now : Nat)
    {s : ManagerState} (h : StateInv s) :
    StateInv (nextRound roomId oracle now s).2 := by
  cases hr : alGet s.rooms roomId with
  | none => simp only [nextRound, hr]; exact h
  | some room =>
    by_cases hlob : room.state = GameState.LOBBY
    · simp only [nextRound, hr, if_pos hlob]
      rcases hsg : startGame roomId s with ⟨res, s1⟩
      have hs1 : StateInv s1 := by
        have h2 := startGame_inv roomId h
        rw [hsg] at h2
        exact h2
      cases res with
      | error e => simp only []; exact hs1
      | ok u => exact nextRoundCore_inv roomId oracle now hs1
    · simp only [nextRound, hr, if_neg hlob]
      exact nextRoundCore_inv roomId oracle now h

theorem startRoundPlaying_inv (roomId : String) (now : Nat)
    {s : ManagerState} (h : StateInv s) :
    StateInv (startRoundPlaying roomId now s).2 := by
  cases hr : alGet s.rooms roomId with
  | none => simp only [startRoundPlaying, hr]; exact h
  | some room =>
    cases hcr : room.currentRound with
    | none => simp only [startRoundPlaying, hr, hcr]; exact h
    | some round =>
      by_cases hst : room.state ≠ GameState.ROUND_LOADING
      · simp only [startRoundPlaying, hr, hcr, if_pos hst]; exact h
      · simp only [startRoundPlaying, hr, hcr, if_neg hst]
        obtain ⟨hid, hhost, hkeys, htot, hlob, hkar⟩ :
            room.id = roomId ∧ RoomWF room := stateInv_room h hr
        refine stateInv_setRoom h hid ⟨hhost, hkeys, htot, ?_, ?_⟩
        · intro hf
          exact nomatch
            (show GameState.ROUND_PLAYING = GameState.LOBBY from hf)
        · intro r hr2
          have hr4 := Option.some.inj hr2
          subst hr4
          exact hkar round hcr

theorem handleBuzz_inv (roomId playerId : String) (now : Nat)
    {s : ManagerState} (h : StateInv s) :
    StateInv (handleBuzz roomId playerId now s).2 := by
  cases hr : alGet s.rooms roomId with
  | none => simp only [handleBuzz, hr]; exact h
  | some room =>
    by_cases hst : room.state ≠ GameState.ROUND_PLAYING
    · simp only [handleBuzz, hr, if_pos hst]; exact h
    · cases hcr : room.currentRound with
      | none => simp only [handleBuzz, hr, if_neg hst, hcr]; exact h
      | some round =>
        cases hbz : round.buzzedPlayerId with
        | some w => simp only [handleBuzz, hr, if_neg hst, hcr, hbz]; exact h
        | none =>
          simp only [handleBuzz, hr, if_neg hst, hcr, hbz]
          obtain ⟨hid, hhost, hkeys, htot, hlob, hkar⟩ :
              room.id = roomId ∧ RoomWF room := stateInv_room h hr
          refine stateInv_setRoom h hid ⟨hhost, hkeys, htot, ?_, ?_⟩
          · intro hf
            exact nomatch
              (show GameState.ROUND_LOCKED = GameState.LOBBY from hf)
          · intro r hr2
            have hr4 := Option.some.inj hr2
            subst hr4
            exact hkar round hcr

theorem showRoundResult_inv (roomId : String) {s : ManagerState}
    (h : StateInv s) : StateInv (showRoundResult roomId s).2 := by
  cases hr : alGet s.rooms roomId with
  | none => simp only [showRoundResult, hr]; exact h
  | some room =>
    by_cases hst : room.state ≠ GameState.ROUND_LOCKED
    · simp only [showRoundResult, hr, if_pos hst]; exact h
    · simp only [showRoundResult, hr, if_neg hst]
      obtain ⟨hid, hhost, hkeys, htot, hlob, hkar⟩ :
          room.id = roomId ∧ RoomWF room := stateInv_room h hr
      refine stateInv_setRoom h hid ⟨hhost, hkeys, htot, ?_, hkar⟩
      intro hf
      exact nomatch (show GameState.ROUND_RESULT = GameState.LOBBY from hf)

theorem updateScore_inv (roomId playerId : String) (points : Int)
    {s : ManagerState} (h : StateInv s) :
    StateInv (updateScore roomId playerId points s).2 := by
  cases hr : alGet s.rooms roomId with
  | none => simp only [updateScore, hr]; exact h
  | some room =>
    cases hp : alGet room.players playerId with
    | none => simp only [updateScore, hr, hp]; exact h
    | some player =>
      obtain ⟨hid, hhost, hkeys, htot, hlob, hkar⟩ :
          room.id = roomId ∧ RoomWF room := stateInv_room h hr
      obtain ⟨hsock, hpid⟩ := hkeys (playerId, player) (alGet_mem hp)
      cases hgp : alGet s.players playerId with
      | none =>
        simp only [updateScore, hr, hp, hgp, setRoom]
        refine ⟨keys_nodup_alSet h.1, ?_, h.2.2⟩
        intro e he
        rcases mem_alSet he with h1 | h1
        · exact h.2.1 e h1
        · subst h1
          refine ⟨hid, alGet_isSome_alSet _ _ hhost, ?_, htot, hlob, hkar⟩
          intro e2 he2
          rcases mem_alSet he2 with h2 | h2
          · exact hkeys e2 h2
          · subst h2; exact ⟨hsock, hpid⟩
      | some gp =>
        by_cases hrm : gp.roomId = roomId
        · simp only [updateScore, hr, hp, hgp, if_pos hrm, setRoom]
          refine ⟨keys_nodup_alSet h.1, ?_, ?_⟩
          · intro e he
            rcases mem_alSet he with h1 | h1
            · exact h.2.1 e h1
            · subst h1
              refine ⟨hid, alGet_isSome_alSet _ _ hhost, ?_,
                htot, hlob, hkar⟩
              intro e2 he2
              rcases mem_alSet he2 with h2 | h2
              · exact hkeys e2 h2
              · subst h2; exact ⟨hsock, hpid⟩
          · intro e he
            rcases mem_alSet he with h1 | h1
            · exact h.2.2 e h1
            · subst h1; exact hpid
        · simp only [updateScore, hr, hp, hgp, if_neg hrm, setRoom]
          refine ⟨keys_nodup_alSet h.1, ?_, h.2.2⟩
          intro e he
          rcases mem_alSet he with h1 | h1
          · exact h.2.1 e h1
          · subst h1
            refine ⟨hid, alGet_isSome_alSet _ _ hhost, ?_, htot, hlob, hkar⟩
            intro e2 he2
            rcases mem_alSet he2 with h2 | h2
            · exact hkeys e2 h2
            · subst h2; exact ⟨hsock, hpid⟩

theorem giveScore_inv (roomId playerId : String) (scoreAmount : Int)
    {s : ManagerState} (h : StateInv s) :
    StateInv (giveScore roomId playerId scoreAmount s).2 := by
  by_cases hc : scoreAmount < 0 ∨ scoreAmount > 10
  · simp only [giveScore, if_pos hc]; exact h
  · simp only [giveScore, if_neg hc]
    exact updateScore_inv roomId playerId scoreAmount h

theorem resetRound_inv (roomId : String) (oracle : Nat → Nat) (now : Nat)
    {s : ManagerState} (h : StateInv s) :
    StateInv (resetRound roomId oracle now s).2 := by
  cases hr : alGet s.rooms roomId with
  | none => simp only [resetRound, hr]; exact h
  | some room =>
    by_cases hst : room.state = GameState.ROUND_LOCKED ∨
        room.state = GameState.ROUND_RESULT
    · simp only [resetRound, hr, if_pos hst]
      obtain ⟨hid, hhost, hkeys, htot, hlob, hkar⟩ :
          room.id = roomId ∧ RoomWF room := stateInv_room h hr
      refine nextRound_inv roomId oracle now
        (stateInv_setRoom h hid ⟨hhost, hkeys, htot, ?_, ?_⟩)
      · intro hf
        have : room.state = GameState.LOBBY := hf
        rcases hst with h1 | h1 <;> rw [h1] at this <;> exact nomatch this
      · intro r hr2
        exact nomatch (show (none : Option CurrentRound) = some r from hr2)
    · simp only [resetRound, hr, if_neg hst]; exact h

/-- Every state reachable by any sequence of manager operations
satisfies the invariant. -/
theorem reachable_inv {s : ManagerState} (h : Reachable s) : StateInv s := by
  induction h with
  | init =>
    refine ⟨List.nodup_nil, ?_, ?_⟩ <;>
      exact fun e he => absurd he (List.not_mem_nil e)
  | step hreach hstep ih =>
    cases hstep with
    | createRoom hostId hostName roomId? digits avatarR s =>
      exact createRoom_inv hostId hostName roomId? digits avatarR ih
    | addPlayer socketId name roomId avatarR s =>
      exact addPlayer_inv socketId name roomId avatarR ih
    | removePlayer socketId s => exact removePlayer_inv socketId ih
    | startGame roomId s => exact startGame_inv roomId ih
    | nextRound roomId oracle now s => exact nextRound_inv roomId oracle now ih
    | startRoundPlaying roomId now s =>
      exact startRoundPlaying_inv roomId now ih
    | handleBuzz roomId playerId now s =>
      exact handleBuzz_inv roomId playerId now ih
    | showRoundResult roomId s => exact showRoundResult_inv roomId ih
    | updateScore roomId playerId points s =>
      exact updateScore_inv roomId playerId points ih
    | giveScore roomId playerId scoreAmount s =>
      exact giveScore_inv roomId playerId scoreAmount ih
    | resetRound roomId oracle now s => exact resetRound_inv roomId oracle now ih

-- ==================== SELECTION-LOOP LEMMAS =========================

theorem getRandomSong_isSome {songs : List Song} (hne : songs ≠ [])
    (r : Nat) : ∃ s0, getRandomSong songs r = some s0 := by
  have hlen : r % songs.length < songs.length :=
    Nat.mod_lt _ (List.length_pos.mpr hne)
  exact ⟨songs.get ⟨r % songs.length, hlen⟩, List.get?_eq_get hlen⟩

/-- On success the selection loop either keeps the used list and returns
a song not yet in it, or has taken the exhaustion path that resets the
used list to empty. -/
theorem selectLoopAux_fresh (songs : List Song) (oracle : Nat → Nat)
    (used : List String) :
    ∀ k fuel song used1,
      selectLoopAux songs oracle used k fuel = (some song, used1) →
      (used1 = used ∧ song.id ∉ used) ∨ used1 = [] := by
  intro k fuel
  induction fuel generalizing k with
  | zero =>
    intro song used1 hsel
    rw [selectLoopAux] at hsel
    injection hsel with h1 h2
    exact Or.inr h2.symm
  | succ fuel ih =>
    intro song used1 hsel
    cases hg : getRandomSong songs (oracle k) with
    | none =>
      simp only [selectLoopAux, hg] at hsel
      simp at hsel
    | some s0 =>
      simp only [selectLoopAux, hg] at hsel
      by_cases hin : s0.id ∈ used
      · rw [if_pos hin] at hsel
        exact ih (k + 1) song used1 hsel
      · rw [if_neg hin] at hsel
        injection hsel with h1 h2
        injection h1 with h1
        subst h1
        subst h2
        exact Or.inl ⟨rfl, hin⟩

/-- With a nonempty catalog the selection loop always returns a song. -/
theorem selectLoopAux_isSome (songs : List Song) (oracle : Nat → Nat)
    (used : List String) (hne : songs ≠ []) :
    ∀ k fuel, ∃ song used1,
      selectLoopAux songs oracle used k fuel = (some song, used1) := by
  intro k fuel
  induction fuel generalizing k with
  | zero =>
    obtain ⟨s0, hs0⟩ := getRandomSong_isSome hne (oracle (k + 1))
    exact ⟨s0, [], by rw [selectLoopAux, hs0]⟩
  | succ fuel ih =>
    obtain ⟨s0, hs0⟩ := getRandomSong_isSome hne (oracle k)
    by_cases hin : s0.id ∈ used
    · obtain ⟨song, used1, hrec⟩ := ih (k + 1)
      refine ⟨song, used1, ?_⟩
      simp only [selectLoopAux, hs0, if_pos hin]
      exact hrec
    · refine ⟨s0, used, ?_⟩
      simp only [selectLoopAux, hs0, if_neg hin]

/-- The selection loop comes back empty-handed exactly for an empty
catalog. -/
theorem selectSong_eq_none (songs : List Song) (oracle : Nat → Nat)
    (used : List String) :
    (selectSong songs oracle used).1 = none ↔ songs = [] := by
  constructor
  · intro h0
    by_contra hne
    obtain ⟨song, used1, hsel⟩ :=
      selectLoopAux_isSome songs oracle used hne 0 99
    rw [selectSong, hsel] at h0
    simp at h0
  · intro h0
    subst h0
    rfl

theorem selectSong_fresh (songs : List Song) (oracle : Nat → Nat)
    (used : List String) (song : Song) (used1 : List String)
    (h : selectSong songs oracle used = (some song, used1)) :
    (used1 = used ∧ song.id ∉ used) ∨ used1 = [] :=
  selectLoopAux_fresh songs oracle used 0 99 song used1 h

-- ==================== CLAIM C1 ======================================

/-- C1, counterexample to the claim as stated: `handleBuzz` on an
unknown room code signals `RoomNotFound` (the source throws
`new Error('Room not found')`), instead of returning `false` without an
error as the claim asserts for the room-not-found case. -/
theorem handleBuzz_room_not_found_throws :
    (handleBuzz "ABCDEF" "p1" 0 initState).1 =
      Except.error GameError.RoomNotFound := rfl

/-- C1 (amended): when the room exists, `handleBuzz` returns `false`
without signaling an error whenever the state is not `ROUND_PLAYING`,
no transient round is present, or a buzz is already recorded — leaving
the state unchanged; for the first call with the round in
`ROUND_PLAYING` and unbuzzed it returns `true`, records the caller's
identifier and the server-side timestamp, and transitions the room to
`ROUND_LOCKED` (so it returns `true` exactly once per round).  When the
room is not found it throws `RoomNotFound` rather than returning
`false`. -/
theorem handleBuzz_amended (s : ManagerState) (roomId playerId : String)
    (now : Nat) :
    (alGet s.rooms roomId = none →
      handleBuzz roomId playerId now s =
        (Except.error GameError.RoomNotFound, s)) ∧
    (∀ room, alGet s.rooms roomId = some room →
      ((room.state ≠ GameState.ROUND_PLAYING ∨ room.currentRound = none ∨
          (∃ r w, room.currentRound = some r ∧
            r.buzzedPlayerId = some w)) →
        handleBuzz roomId playerId now s = (Except.ok false, s)) ∧
      (∀ r, room.state = GameState.ROUND_PLAYING →
        room.currentRound = some r → r.buzzedPlayerId = none →
        handleBuzz roomId playerId now s =
          (Except.ok true,
           setRoom s roomId
             { room with
                 state := GameState.ROUND_LOCKED,
                 currentRound := some
                   { r with buzzedPlayerId := some playerId,
                            buzzTime := some now } }))) := by
  refine ⟨?_, ?_⟩
  · intro hr
    simp only [handleBuzz, hr]
  · intro room hr
    refine ⟨?_, ?_⟩
    · intro hcase
      by_cases hst : room.state ≠ GameState.ROUND_PLAYING
      · simp only [handleBuzz, hr, if_pos hst]
      · rcases hcase with h1 | h1 | ⟨r, w, hcr, hbz⟩
        · exact absurd h1 (by simpa using hst)
        · simp only [handleBuzz, hr, if_neg hst, h1]
        · simp only [handleBuzz, hr, if_neg hst, hcr, hbz]
    · intro r hst hcr hbz
      have hne : ¬room.state ≠ GameState.ROUND_PLAYING := by
        rw [hst]; simp
      simp only [handleBuzz, hr, if_neg hne, hcr, hbz]

/-- Concrete round used by the C1 witness. -/
def roundC1 : CurrentRound :=
  { song := { id := "song-001", type := "intro", difficulty := "medium" },
    buzzedPlayerId := none, startTime := 3, buzzTime := none,
    isKaraoke := false }

/-- Concrete room used by the C1 witness. -/
def playerC1 : GamePlayer :=
  { id := "h", socketId := "h", name := "Ana", score := 0,
    avatar := "🎮", roomId := "R" }

def roomC1 : GameRoom :=
  { id := "R", hostId := "h", state := GameState.ROUND_PLAYING,
    players := [("h", playerC1)],
    currentRound := some roundC1, roundNumber := 1, totalRounds := 10,
    songsPlayed := ["song-001"] }

/-- Concrete manager state used by the C1 witness. -/
def stateC1 : ManagerState :=
  { rooms := [("R", roomC1)], players := [("h", playerC1)] }

theorem handleBuzz_amended_witness :
    handleBuzz "NOROOM" "p9" 42 stateC1 =
      (Except.error GameError.RoomNotFound, stateC1) ∧
    handleBuzz "R" "p9" 42 stateC1 =
      (Except.ok true,
       setRoom stateC1 "R"
         { roomC1 with
             state := GameState.ROUND_LOCKED,
             currentRound := some
               { roundC1 with buzzedPlayerId := some "p9",
                              buzzTime := some 42 } }) :=
  ⟨(handleBuzz_amended stateC1 "NOROOM" "p9" 42).1 (by rfl),
   ((handleBuzz_amended stateC1 "R" "p9" 42).2 roomC1 (by rfl)).2 roundC1
     (by rfl) (by rfl) (by rfl)⟩

-- ==================== CLAIM C2 ======================================

/-- C2: once a buzz has been recorded for the current round, every later
`handleBuzz` call against that round returns `false` and returns the
manager state unchanged — in particular the recorded winner and the
buzz timestamp stay exactly as they were until the transient round is
replaced. -/
theorem handleBuzz_locked_immutable (s : ManagerState)
    (roomId playerId : String) (now : Nat) (room : GameRoom)
    (r : CurrentRound) (w : String)
    (hr : alGet s.rooms roomId = some room)
    (hcr : room.currentRound = some r)
    (hbz : r.buzzedPlayerId = some w) :
    handleBuzz roomId playerId now s = (Except.ok false, s) := by
  by_cases hst : room.state ≠ GameState.ROUND_PLAYING
  · simp only [handleBuzz, hr, if_pos hst]
  · simp only [handleBuzz, hr, if_neg hst, hcr, hbz]

/-- Concrete room (already buzzed by "p1") used by the C2 witness. -/
def playerC2 : GamePlayer :=
  { id := "h", socketId := "h", name := "Ana", score := 0,
    avatar := "🎮", roomId := "R" }

def roundC2 : CurrentRound :=
  { song := { id := "song-002", type := "reverse", difficulty := "hard" },
    buzzedPlayerId := some "p1", startTime := 3, buzzTime := some 5,
    isKaraoke := false }

def roomC2 : GameRoom :=
  { id := "R", hostId := "h", state := GameState.ROUND_LOCKED,
    players := [("h", playerC2)],
    currentRound := some roundC2,
    roundNumber := 2, totalRounds := 10,
    songsPlayed := ["song-001", "song-002"] }

/-- Concrete manager state used by the C2 witness. -/
def stateC2 : ManagerState := { rooms := [("R", roomC2)], players := [] }

theorem handleBuzz_locked_immutable_witness :
    handleBuzz "R" "p2" 99 stateC2 = (Except.ok false, stateC2) :=
  handleBuzz_locked_immutable stateC2 "R" "p2" 99 roomC2 roundC2 "p1"
    (by rfl) (by rfl) (by rfl)

-- ==================== CLAIM C10 =====================================

/-- C10: `handleBuzz` never checks that the buzzing session id is a
member of the target room: for any room in `ROUND_PLAYING` with no buzz
recorded, a call with an arbitrary session identifier — there is no
hypothesis relating `playerId` to `room.players` or to the player
registry — returns `true` and records that identifier as the round's
buzz winner. -/
theorem handleBuzz_no_membership_check (s : ManagerState)
    (roomId playerId : String) (now : Nat) (room : GameRoom)
    (r : CurrentRound) (hr : alGet s.rooms roomId = some room)
    (hst : room.state = GameState.ROUND_PLAYING)
    (hcr : room.currentRound = some r) (hbz : r.buzzedPlayerId = none) :
    handleBuzz roomId playerId now s =
      (Except.ok true,
       setRoom s roomId
         { room with
             state := GameState.ROUND_LOCKED,
             currentRound := some
               { r with buzzedPlayerId := some playerId,
                        buzzTime := some now } }) := by
  have hne : ¬room.state ≠ GameState.ROUND_PLAYING := by rw [hst]; simp
  simp only [handleBuzz, hr, if_neg hne, hcr, hbz]

/-- Concrete round used by the C10 witness. -/
def roundC10 : CurrentRound :=
  { song := { id := "song-003", type := "emoji", difficulty := "easy" },
    buzzedPlayerId := none, startTime := 8, buzzTime := none,
    isKaraoke := false }

/-- Concrete room used by the C10 witness; note its membership map holds
only "h", yet "ghost" (no player at all) wins the buzz. -/
def playerC10 : GamePlayer :=
  { id := "h", socketId := "h", name := "Ana", score := 0,
    avatar := "🎮", roomId := "R" }

def roomC10 : GameRoom :=
  { id := "R", hostId := "h", state := GameState.ROUND_PLAYING,
    players := [("h", playerC10)],
    currentRound := some roundC10, roundNumber := 3, totalRounds := 10,
    songsPlayed := ["song-003"] }

/-- Concrete manager state used by the C10 witness; the registry does
not know "ghost" either. -/
def stateC10 : ManagerState := { rooms := [("R", roomC10)], players := [] }

theorem handleBuzz_no_membership_check_witness :
    handleBuzz "R" "ghost" 11 stateC10 =
      (Except.ok true,
       setRoom stateC10 "R"
         { roomC10 with
             state := GameState.ROUND_LOCKED,
             currentRound := some
               { roundC10 with buzzedPlayerId := some "ghost",
                               buzzTime := some 11 } }) ∧
    alGet roomC10.players "ghost" = none ∧
    alGet stateC10.players "ghost" = none :=
  ⟨handleBuzz_no_membership_check stateC10 "R" "ghost" 11 roomC10 roundC10
     (by rfl) (by rfl) (by rfl) (by rfl), by rfl, by rfl⟩

-- ==================== CLAIM C8 ======================================

/-- C8: `updateScore` fails with `RoomNotFound` when the room does not
exist and with `PlayerNotInRoom` when the named session is not a member;
otherwise — in any room state — it sets the named player's score to
`max 0 (score + delta)` (so the result is never negative, and a delta of
`-score` or more negative yields exactly 0) and changes nothing else:
every other member, every other room, and every other field of the room
keep their values. -/
theorem updateScore_spec (s : ManagerState) (roomId playerId : String)
    (points : Int) :
    (alGet s.rooms roomId = none →
      updateScore roomId playerId points s =
        (Except.error GameError.RoomNotFound, s)) ∧
    (∀ room, alGet s.rooms roomId = some room →
      (alGet room.players playerId = none →
        updateScore roomId playerId points s =
          (Except.error GameError.PlayerNotFoundInRoom, s)) ∧
      (∀ player, alGet room.players playerId = some player →
        (updateScore roomId playerId points s).1 = Except.ok () ∧
        (∃ room1,
          alGet (updateScore roomId playerId points s).2.rooms roomId =
            some room1 ∧
          alGet room1.players playerId =
            some { player with score := max 0 (player.score + points) } ∧
          0 ≤ max 0 (player.score + points) ∧
          (points ≤ -player.score → max 0 (player.score + points) = 0) ∧
          (∀ pid2, pid2 ≠ playerId →
            alGet room1.players pid2 = alGet room.players pid2) ∧
          room1.id = room.id ∧ room1.hostId = room.hostId ∧
          room1.state = room.state ∧
          room1.currentRound = room.currentRound ∧
          room1.roundNumber = room.roundNumber ∧
          room1.totalRounds = room.totalRounds ∧
          room1.songsPlayed = room.songsPlayed) ∧
        (∀ code2, code2 ≠ roomId →
          alGet (updateScore roomId playerId points s).2.rooms code2 =
            alGet s.rooms code2))) := by
  refine ⟨?_, ?_⟩
  · intro hr
    simp only [updateScore, hr]
  · intro room hr
    refine ⟨?_, ?_⟩
    · intro hp
      simp only [updateScore, hr, hp]
    · intro player hp
      have hstate : (updateScore roomId playerId points s).2.rooms =
          alSet s.rooms roomId
            { room with players := alSet room.players playerId { player with score := max 0 (player.score + points) } } := by
        cases hgp : alGet s.players playerId with
        | none => simp only [updateScore, hr, hp, hgp, setRoom]
        | some gp =>
          by_cases hrm : gp.roomId = roomId
          · simp only [updateScore, hr, hp, hgp, if_pos hrm, setRoom]
          · simp only [updateScore, hr, hp, hgp, if_neg hrm, setRoom]
      have hres : (updateScore roomId playerId points s).1 =
          Except.ok () := by
        cases hgp : alGet s.players playerId with
        | none => simp only [updateScore, hr, hp, hgp]
        | some gp =>
          by_cases hrm : gp.roomId = roomId
          · simp only [updateScore, hr, hp, hgp, if_pos hrm]
          · simp only [updateScore, hr, hp, hgp, if_neg hrm]
      refine ⟨hres, ?_, ?_⟩
      · refine ⟨{ room with players := alSet room.players playerId { player with score := max 0 (player.score + points) } },
          ?_, ?_, le_max_left 0 _, ?_, ?_, rfl, rfl, rfl, rfl, rfl, rfl,
          rfl⟩
        · rw [hstate]
          exact alGet_alSet_self _ _ _
        · exact alGet_alSet_self _ _ _
        · intro hpt
          have hle : player.score + points ≤ 0 := by omega
          exact max_eq_left hle
        · intro pid2 hne
          exact alGet_alSet_ne _ _ _ _ hne
      · intro code2 hne
        rw [hstate]
        exact alGet_alSet_ne _ _ _ _ hne

/-- Concrete player ("p", score 3) used by the C8 witness. -/
def playerC8 : GamePlayer :=
  { id := "p", socketId := "p", name := "Leo", score := 3,
    avatar := "🎯", roomId := "R" }

/-- Concrete room used by the C8 witness. -/
def roomC8 : GameRoom :=
  { id := "R", hostId := "p", state := GameState.ROUND_RESULT,
    players := [("p", playerC8)],
    currentRound := none, roundNumber := 4, totalRounds := 10,
    songsPlayed := [] }

/-- Concrete manager state used by the C8 witness. -/
def stateC8 : ManagerState :=
  { rooms := [("R", roomC8)], players := [("p", playerC8)] }

theorem updateScore_spec_witness :
    (updateScore "R" "p" (-5) stateC8).1 = Except.ok () ∧
    max 0 ((3 : Int) + -5) = 0 := by
  obtain ⟨hok, ⟨room1, hroom1, hscore, hnonneg, hclamp, hframe⟩, hrooms⟩ :=
    ((updateScore_spec stateC8 "R" "p" (-5)).2 roomC8 (by rfl)).2 playerC8
      (by rfl)
  exact ⟨hok, hclamp (by norm_num [playerC8])⟩

-- ==================== CLAIM C5 ======================================

/-- C5: in a started room with rounds remaining, `nextRound` selects a
song that is never in the effective used-set: either the used-set is
kept and the chosen song is not in it, or the bounded retry budget was
exhausted and the used-set was reset to empty before the final
unconditional draw (the exhaustion path, the expected path here since
the catalog of 4 songs is smaller than the 10-round target); and the
selection comes back empty — making `nextRound` fail with
`NoSongsAvailable` — exactly when the catalog is empty, which the real
`SONGS` never is. -/
theorem nextRound_selection_spec (s : ManagerState) (roomId : String)
    (oracle : Nat → Nat) (now : Nat) (room : GameRoom)
    (hr : alGet s.rooms roomId = some room)
    (hst : room.state ≠ GameState.LOBBY)
    (hlt : room.roundNumber < room.totalRounds) :
    (∃ song used1,
      selectSong SONGS oracle room.songsPlayed = (some song, used1) ∧
      ((used1 = room.songsPlayed ∧ song.id ∉ room.songsPlayed) ∨
        used1 = []) ∧
      (nextRound roomId oracle now s).1 = Except.ok ()) ∧
    (∀ (songs2 : List Song) (oracle2 : Nat → Nat) (used2 : List String),
      (selectSong songs2 oracle2 used2).1 = none ↔ songs2 = []) := by
  refine ⟨?_, fun songs2 oracle2 used2 =>
    selectSong_eq_none songs2 oracle2 used2⟩
  have hSONGS : SONGS ≠ [] := by simp [SONGS]
  obtain ⟨song, used1, hsel⟩ :=
    selectLoopAux_isSome SONGS oracle room.songsPlayed hSONGS 0 99
  have hsel2 : selectSong SONGS oracle room.songsPlayed =
      (some song, used1) := hsel
  refine ⟨song, used1, hsel2, selectSong_fresh _ _ _ _ _ hsel2, ?_⟩
  have hge : ¬room.roundNumber ≥ room.totalRounds := not_le.mpr hlt
  simp only [nextRound, hr, if_neg hst, nextRoundCore, hr, if_neg hge,
    hsel2]

/-- Concrete room used by the C5 witness: started, three songs already
used, seven rounds to go. -/
def roomC5 : GameRoom :=
  { id := "R", hostId := "h", state := GameState.ROUND_RESULT,
    players := [("h", { id := "h", socketId := "h", name := "Ana",
                        score := 0, avatar := "🎮", roomId := "R" })],
    currentRound := none, roundNumber := 3, totalRounds := 10,
    songsPlayed := ["song-001", "song-002", "song-003"] }

/-- Concrete manager state used by the C5 witness. -/
def stateC5 : ManagerState := { rooms := [("R", roomC5)], players := [] }

theorem nextRound_selection_spec_witness :
    (∃ song used1,
      selectSong SONGS (fun _ => 3) roomC5.songsPlayed =
        (some song, used1) ∧
      ((used1 = roomC5.songsPlayed ∧ song.id ∉ roomC5.songsPlayed) ∨
        used1 = []) ∧
      (nextRound "R" (fun _ => 3) 0 stateC5).1 = Except.ok ()) ∧
    (∀ (songs2 : List Song) (oracle2 : Nat → Nat) (used2 : List String),
      (selectSong songs2 oracle2 used2).1 = none ↔ songs2 = []) :=
  nextRound_selection_spec stateC5 "R" (fun _ => 3) 0 roomC5 (by rfl)
    (by simp [roomC5]) (by norm_num [roomC5])

-- ==================== CLAIM C9 ======================================

/-- C9, counterexample to the claim as stated: for the random value 0.5,
whose base-36 fraction is the single digit 18 (`(0.5).toString(36)` is
`"0.i"`), `createRoom` with no desired code succeeds and returns the
room code "I" — a 1-character string, not a 6-character one, because
`substring(2, 8)` keeps only the digits that exist. -/
theorem createRoom_short_code :
    (createRoom "h" "Ana" none [(18 : Fin 36)] 0 initState).1 =
      Except.ok "I" ∧ "I".length ≠ 6 :=
  ⟨rfl, by decide⟩

/-- C9 (amended): when the generated code does not collide, `createRoom`
with no desired code returns a code of `min 6 (number of base-36
fraction digits)` characters — at most six, and six only when the
random value has at least six base-36 digits — and registers the caller
as host and sole initial member of a `LOBBY` room with round counter 0,
total-rounds target 10 and a player record with score 0. -/
theorem createRoom_spec (s : ManagerState) (hostId hostName : String)
    (digits : List (Fin 36)) (avatarR : Nat)
    (hfree : alGet s.rooms (generateRoomId digits) = none) :
    (generateRoomId digits).length = min 6 digits.length ∧
    (generateRoomId digits).length ≤ 6 ∧
    createRoom hostId hostName none digits avatarR s =
      (Except.ok (generateRoomId digits),
       { rooms := alSet s.rooms (generateRoomId digits)
           { id := generateRoomId digits, hostId := hostId,
             state := GameState.LOBBY,
             players := [(hostId, { id := hostId, socketId := hostId, name := hostName, score := 0, avatar := generateAvatar avatarR, roomId := generateRoomId digits })],
             currentRound := none, roundNumber := 0, totalRounds := 10,
             songsPlayed := [] },
         players := alSet s.players hostId { id := hostId, socketId := hostId, name := hostName, score := 0, avatar := generateAvatar avatarR, roomId := generateRoomId digits } }) := by
  have hlen : (generateRoomId digits).length = min 6 digits.length := by
    simp [generateRoomId, String.length]
  refine ⟨hlen, by rw [hlen]; exact min_le_left 6 _, ?_⟩
  have hc : alHas s.rooms (generateRoomId digits) = true ↔ False := by
    simp [alHas, hfree]
  simp only [createRoom, alHas, hfree, Option.isSome_none,
    Bool.false_eq_true, if_false]
  rfl

theorem createRoom_spec_witness :
    (generateRoomId [(1 : Fin 36), (2 : Fin 36)]).length ≤ 6 ∧
    (createRoom "h" "Ana" none [(1 : Fin 36), (2 : Fin 36)] 0
        initState).1 =
      Except.ok (generateRoomId [(1 : Fin 36), (2 : Fin 36)]) := by
  obtain ⟨h1, h2, h3⟩ := createRoom_spec initState "h" "Ana"
    [(1 : Fin 36), (2 : Fin 36)] 0 (by rfl)
  exact ⟨h2, by rw [h3]⟩

-- ==================== CLAIM C4 ======================================

/-- The three-operation state of the C4 counterexample: "h1" creates
room "AAAAAA", "h2" creates room "BBBBBB", then `addPlayer` joins "h1"
— already the member and host of "AAAAAA" — into "BBBBBB". -/
def stateC4 : ManagerState :=
  (addPlayer "h1" "Ana" "BBBBBB" 0
    (createRoom "h2" "Leo" (some "BBBBBB") [] 0
      (createRoom "h1" "Ana" (some "AAAAAA") [] 0 initState).2).2).2

/-- C4, counterexample: in the reachable state `stateC4` the session id
"h1" is a member of the two live rooms "AAAAAA" and "BBBBBB" at once —
`addPlayer` checks membership only in the target room, so a session
that is already in some other room gains a second membership. -/
theorem addPlayer_double_membership :
    Reachable stateC4 ∧
    ((alGet stateC4.rooms "AAAAAA").bind
      (fun room => alGet room.players "h1")).isSome = true ∧
    ((alGet stateC4.rooms "BBBBBB").bind
      (fun room => alGet room.players "h1")).isSome = true := by
  refine ⟨?_, by rfl, by rfl⟩
  exact Reachable.step (Reachable.step (Reachable.step Reachable.init
      (Step.createRoom "h1" "Ana" (some "AAAAAA") [] 0 initState))
      (Step.createRoom "h2" "Leo" (some "BBBBBB") [] 0 _))
    (Step.addPlayer "h1" "Ana" "BBBBBB" 0 _)

/-- C4 (amended): per-room uniqueness holds — `addPlayer` with a session
id that is already a member of the target room returns the existing
record and leaves the state unchanged, so joining the same room twice
never duplicates a membership; but the manager does not enforce
cross-room uniqueness, so a session id that is a member of a different
room does acquire a second membership (see the counterexample). -/
theorem addPlayer_idempotent (s : ManagerState)
    (socketId name roomId : String) (avatarR : Nat) (room : GameRoom)
    (p : GamePlayer) (hr : alGet s.rooms roomId = some room)
    (hp : alGet room.players socketId = some p) :
    addPlayer socketId name roomId avatarR s = (Except.ok p, s) := by
  simp only [addPlayer, hr, hp]

/-- Concrete player used by the C4 witness. -/
def playerC4 : GamePlayer :=
  { id := "h", socketId := "h", name := "Ana", score := 7,
    avatar := "🎮", roomId := "R" }

/-- Concrete room used by the C4 witness. -/
def roomC4 : GameRoom :=
  { id := "R", hostId := "h", state := GameState.LOBBY,
    players := [("h", playerC4)], currentRound := none,
    roundNumber := 0, totalRounds := 10, songsPlayed := [] }

/-- Concrete manager state used by the C4 witness. -/
def stateC4b : ManagerState :=
  { rooms := [("R", roomC4)], players := [("h", playerC4)] }

theorem addPlayer_idempotent_witness :
    addPlayer "h" "Zoe" "R" 9 stateC4b = (Except.ok playerC4, stateC4b) :=
  addPlayer_idempotent stateC4b "h" "Zoe" "R" 9 roomC4 playerC4
    (by rfl) (by rfl)

-- ==================== CLAIM C3 ======================================

/-- C3: in every reachable manager state, every room present in the
registry has its host among its members — hence at least one member —
and whenever `removePlayer` removes the last member of a room, that
room is deleted from the registry in the same step and the caller is
told there is no affected room (`room` comes back as `none`). -/
theorem rooms_never_empty (s : ManagerState) (code pid : String)
    (room : GameRoom) (p : GamePlayer) (h : Reachable s) :
    (alGet s.rooms code = some room →
      (alGet room.players room.hostId).isSome = true ∧
        room.players ≠ []) ∧
    (alGet s.players pid = some p →
      ∀ room2, alGet s.rooms p.roomId = some room2 →
        alDelete room2.players pid = [] →
        (removePlayer pid s).1 = (none, some p) ∧
        alGet (removePlayer pid s).2.rooms p.roomId = none) := by
  have hinv := reachable_inv h
  refine ⟨?_, ?_⟩
  · intro hr
    obtain ⟨hid, hhost, hkeys, htot, hlob, hkar⟩ := stateInv_room hinv hr
    refine ⟨hhost, ?_⟩
    intro hnil
    rw [hnil] at hhost
    simp [alGet] at hhost
  · intro hp room2 hr2 hdel
    obtain ⟨hid2, hhost2, hkeys2, htot2, hlob2, hkar2⟩ :=
      stateInv_room hinv hr2
    have hpid : p.id = pid := stateInv_player hinv hp
    cases hph : alGet room2.players room2.hostId with
    | none => rw [hph] at hhost2; simp at hhost2
    | some ph =>
      have hhostpid : room2.hostId = pid :=
        alDelete_eq_nil hdel (room2.hostId, ph) (alGet_mem hph)
      have hb : p.id = room2.hostId := by rw [hpid, hhostpid]
      constructor
      · simp only [removePlayer, hp, hr2, hdel, if_pos hb]
      · simp only [removePlayer, hp, hr2, hdel, if_pos hb]
        rw [hid2, alDelete_alSet]
        exact alGet_alDelete_self hinv.1

/-- Concrete host record used by the C3 witness. -/
def playerC3 : GamePlayer :=
  { id := "h1", socketId := "h1", name := "Ana", score := 0,
    avatar := "🎮", roomId := "CCCCCC" }

/-- Concrete room used by the C3 witness ("h1" is the sole member). -/
def roomC3 : GameRoom :=
  { id := "CCCCCC", hostId := "h1", state := GameState.LOBBY,
    players := [("h1", playerC3)], currentRound := none,
    roundNumber := 0, totalRounds := 10, songsPlayed := [] }

/-- Reachable one-operation state used by the C3 witness. -/
def stateC3 : ManagerState :=
  (createRoom "h1" "Ana" (some "CCCCCC") [] 0 initState).2

theorem rooms_never_empty_witness :
    (alGet roomC3.players roomC3.hostId).isSome = true ∧
    (removePlayer "h1" stateC3).1 = (none, some playerC3) ∧
    alGet (removePlayer "h1" stateC3).2.rooms "CCCCCC" = none := by
  obtain ⟨h1, h2⟩ := rooms_never_empty stateC3 "CCCCCC" "h1" roomC3
    playerC3
    (Reachable.step Reachable.init
      (Step.createRoom "h1" "Ana" (some "CCCCCC") [] 0 initState))
  obtain ⟨ha, hb⟩ := h1 (by rfl)
  obtain ⟨hc, hd⟩ := h2 (by rfl) roomC3 (by rfl) (by rfl)
  exact ⟨ha, hc, hd⟩

-- ==================== CLAIM C6 ======================================

/-- C6: in every reachable manager state, the transient round of any
registered room carries the karaoke flag exactly when the room's round
counter — unchanged since the moment that round was installed — equals
the total-rounds target: the final round, and only the final round, is
the karaoke round. -/
theorem karaoke_iff_final_round (s : ManagerState) (code : String)
    (room : GameRoom) (r : CurrentRound) (h : Reachable s)
    (hr : alGet s.rooms code = some room)
    (hcr : room.currentRound = some r) :
    (r.isKaraoke = true ↔ room.roundNumber = room.totalRounds) :=
  (stateInv_room (reachable_inv h) hr).2.2.2.2.2 r hcr

/-- Concrete round installed by the first `nextRound`, used by the C6
witness. -/
def roundC6 : CurrentRound :=
  { song := { id := "song-001", type := "intro", difficulty := "medium" },
    buzzedPlayerId := none, startTime := 7, buzzTime := none,
    isKaraoke := false }

/-- Concrete room after the first `nextRound`, used by the C6 witness. -/
def roomC6 : GameRoom :=
  { id := "AAAAAA", hostId := "h1", state := GameState.ROUND_LOADING,
    players :=
      [("h1", { id := "h1", socketId := "h1", name := "Ana", score := 0,
                avatar := "🎮", roomId := "AAAAAA" }),
       ("p2", { id := "p2", socketId := "p2", name := "Leo", score := 0,
                avatar := "🎯", roomId := "AAAAAA" })],
    currentRound := some roundC6, roundNumber := 1, totalRounds := 10,
    songsPlayed := ["song-001"] }

/-- Reachable three-operation state used by the C6 witness. -/
def stateC6 : ManagerState :=
  (nextRound "AAAAAA" (fun _ => 0) 7
    (addPlayer "p2" "Leo" "AAAAAA" 1
      (createRoom "h1" "Ana" (some "AAAAAA") [] 0 initState).2).2).2

theorem karaoke_iff_final_round_witness :
    (roundC6.isKaraoke = true ↔
      roomC6.roundNumber = roomC6.totalRounds) :=
  karaoke_iff_final_round stateC6 "AAAAAA" roomC6 roundC6
    (Reachable.step (Reachable.step (Reachable.step Reachable.init
      (Step.createRoom "h1" "Ana" (some "AAAAAA") [] 0 initState))
      (Step.addPlayer "p2" "Leo" "AAAAAA" 1 _))
      (Step.nextRound "AAAAAA" (fun _ => 0) 7 _))
    (by rfl) (by rfl)

-- ==================== CLAIM C7 ======================================

/-- C7: for any reachable room whose round counter has reached the
total-rounds target, `nextRound` — invoked directly, or through
`resetRound` from `ROUND_LOCKED` or `ROUND_RESULT` — succeeds, moves
the room to `GAME_OVER`, clears the transient round and selects no
content: the resulting room keeps the old used-set, round counter and
player records (hence all scores) unchanged, as the explicit result
state shows. -/
theorem nextRound_game_over (s : ManagerState) (roomId : String)
    (oracle : Nat → Nat) (now : Nat) (room : GameRoom) (h : Reachable s)
    (hr : alGet s.rooms roomId = some room)
    (hge : room.roundNumber ≥ room.totalRounds) :
    nextRound roomId oracle now s =
      (Except.ok (),
       setRoom s roomId
         { room with state := GameState.GAME_OVER,
                     currentRound := none }) ∧
    (room.state = GameState.ROUND_LOCKED ∨
       room.state = GameState.ROUND_RESULT →
      resetRound roomId oracle now s =
        (Except.ok (),
         setRoom s roomId
           { room with state := GameState.GAME_OVER,
                       currentRound := none })) := by
  obtain ⟨hid, hhost, hkeys, htot, hlob, hkar⟩ :=
    stateInv_room (reachable_inv h) hr
  have hnl : room.state ≠ GameState.LOBBY := by
    intro hl
    have h0 := (hlob hl).1
    rw [htot] at hge
    omega
  constructor
  · simp only [nextRound, hr, if_neg hnl, nextRoundCore, hr, if_pos hge]
  · intro hlr
    have hs2 : alGet (alSet s.rooms roomId { room with currentRound := none }) roomId =
        some { room with currentRound := none } := alGet_alSet_self _ _ _
    simp only [resetRound, hr, if_pos hlr, setRoom, nextRound, hs2,
      if_neg hnl, nextRoundCore, if_pos hge, alSet_alSet]

/-- One host-driven advance with a fixed oracle and clock, used to build
the C7 witness game. -/
def stepC7 (s : ManagerState) : ManagerState :=
  (nextRound "AAAAAA" (fun _ => 0) 0 s).2

/-- The C7 witness game after `n` advances: room "AAAAAA" with host
"Ana" and player "Leo", started and advanced `n` times. -/
def stateC7 : Nat → ManagerState
  | 0 => (addPlayer "p2" "Leo" "AAAAAA" 1
      (createRoom "h1" "Ana" (some "AAAAAA") [] 0 initState).2).2
  | n + 1 => stepC7 (stateC7 n)

theorem stateC7_reachable : ∀ n, Reachable (stateC7 n)
  | 0 =>
    Reachable.step (Reachable.step Reachable.init
      (Step.createRoom "h1" "Ana" (some "AAAAAA") [] 0 initState))
      (Step.addPlayer "p2" "Leo" "AAAAAA" 1 _)
  | n + 1 =>
    Reachable.step (stateC7_reachable n)
      (Step.nextRound "AAAAAA" (fun _ => 0) 0 (stateC7 n))

/-- The room of the C7 witness after round 10 of the 10-round game has
been installed: counter at the target, karaoke round in place. -/
def roomC7 : GameRoom :=
  { id := "AAAAAA", hostId := "h1", state := GameState.ROUND_LOADING,
    players :=
      [("h1", { id := "h1", socketId := "h1", name := "Ana", score := 0,
                avatar := "🎮", roomId := "AAAAAA" }),
       ("p2", { id := "p2", socketId := "p2", name := "Leo", score := 0,
                avatar := "🎯", roomId := "AAAAAA" })],
    currentRound := some
      { song := { id := "song-001", type := "intro",
                  difficulty := "medium" },
        buzzedPlayerId := none, startTime := 0, buzzTime := none,
        isKaraoke := true },
    roundNumber := 10, totalRounds := 10,
    songsPlayed := ["song-001"] }

theorem nextRound_game_over_witness :
    nextRound "AAAAAA" (fun _ => 0) 0 (stateC7 10) =
      (Except.ok (),
       setRoom (stateC7 10) "AAAAAA"
         { roomC7 with state := GameState.GAME_OVER,
                       currentRound := none }) :=
  (nextRound_game_over (stateC7 10) "AAAAAA" (fun _ => 0) 0 roomC7
    (stateC7_reachable 10) (by rfl) (by rfl)).1
